import Mathlib

/-!
Verification of the retrieval-and-analytics pipeline.

Shallow embedding notes: Python floats are modelled as exact rationals (ℚ);
Python `round(x, n)` (round-half-to-even) is modelled by `roundHalfEven`
on rationals; Python dicts are modelled as functions `String → Option _`;
Python exceptions are modelled with `Except`.
-/

/-- Model of Python's `round` to the nearest integer, rounding halves to even
(banker's rounding), over exact rationals. -/
def roundHalfEven (x : ℚ) : ℤ :=
  if x - ⌊x⌋ < 1/2 then ⌊x⌋
  else if 1/2 < x - ⌊x⌋ then ⌊x⌋ + 1
  else if Even ⌊x⌋ then ⌊x⌋ else ⌊x⌋ + 1

/-- Model of Python's `round(x, 2)`. -/
def round2 (x : ℚ) : ℚ := (roundHalfEven (x * 100) : ℚ) / 100

/-- Model of Python's `round(x, 1)`. -/
def round1 (x : ℚ) : ℚ := (roundHalfEven (x * 10) : ℚ) / 10

/-- Model of Python's `round(x, 0)`. -/
def round0 (x : ℚ) : ℚ := (roundHalfEven x : ℚ)

/-- Translation of `MatchDataProcessor._calculate_kda`
(src/services/data_processor.py, lines 462-467). -/
def calculate_kda (kills deaths assists : ℕ) : ℚ :=
  if deaths = 0 then ((kills + assists : ℕ) : ℚ)
  else round2 (((kills + assists : ℕ) : ℚ) / (deaths : ℚ))

/-- Translation of `MatchDataProcessor._calculate_cs_per_minute`
(src/services/data_processor.py, lines 469-476).  The duration is an
integer number of seconds (possibly negative in principle). -/
def calculate_cs_per_minute (minions jungle : ℕ) (duration : ℤ) : ℚ :=
  let total_cs : ℕ := minions + jungle
  let minutes : ℚ := (duration : ℚ) / 60
  if minutes = 0 then 0
  else round2 ((total_cs : ℚ) / minutes)

theorem roundHalfEven_close (y : ℚ) : |(roundHalfEven y : ℚ) - y| ≤ 1/2 := by
  have h0 : ((⌊y⌋ : ℤ) : ℚ) ≤ y := Int.floor_le y
  have h1 : y < (⌊y⌋ : ℚ) + 1 := Int.lt_floor_add_one y
  unfold roundHalfEven
  split_ifs with hlt hgt hev
  · rw [abs_le]; constructor <;> push_cast <;> linarith
  · rw [abs_le]; constructor <;> push_cast <;> linarith
  · rw [abs_le]; constructor <;> push_cast <;> linarith
  · rw [abs_le]; constructor <;> push_cast <;> linarith

theorem round2_close (x : ℚ) : |round2 x - x| ≤ 1/200 := by
  have h := roundHalfEven_close (x * 100)
  unfold round2
  have : (roundHalfEven (x * 100) : ℚ) / 100 - x
      = ((roundHalfEven (x * 100) : ℚ) - x * 100) / 100 := by ring
  rw [this, abs_div]
  rw [show |(100 : ℚ)| = 100 by norm_num]
  linarith [abs_nonneg ((roundHalfEven (x * 100) : ℚ) - x * 100),
    (div_le_div_iff (by norm_num : (0:ℚ) < 100) (by norm_num : (0:ℚ) < 100)).2
      (by linarith : |(roundHalfEven (x * 100) : ℚ) - x * 100| * 100 ≤ (1/2) * 100)]

example : calculate_kda 5 2 3 = 4 := by
  norm_num [calculate_kda, round2, roundHalfEven]
example : calculate_kda 10 0 2 = 12 := by
  norm_num [calculate_kda, round2, roundHalfEven]
example : calculate_kda 0 5 1 = 1/5 := by
  norm_num [calculate_kda, round2, roundHalfEven]
example : calculate_cs_per_minute 60 0 (-60) = -60 := by
  norm_num [calculate_cs_per_minute, round2, roundHalfEven]

/-- A normalized per-match record, as produced by
`MatchDataProcessor.extract_player_stats` (src/services/data_processor.py,
lines 25-158).  Only the fields used by the statistics under verification
are carried; the remaining columns of the DataFrame are independent and
play no role in the claims. -/
structure MatchRecord where
  win : Bool
  kills : ℕ
  deaths : ℕ
  assists : ℕ
  kda : ℚ
  total_damage_dealt_to_champions : ℕ
  cs_per_minute : ℚ
  vision_score : ℕ
  penta_kills : ℕ
deriving DecidableEq

/-- Column mean of a DataFrame, `df[col].mean()`. -/
def colMean (f : MatchRecord → ℚ) (l : List MatchRecord) : ℚ :=
  (l.map f).sum / l.length

/-- The subset of the dictionary built by
`MatchDataProcessor.calculate_overall_stats` (src/services/data_processor.py,
lines 197-252) that the verified claims mention. -/
structure OverallStats where
  total_games : ℕ
  wins : ℕ
  losses : ℕ
  win_rate : ℚ
  avg_kills : ℚ
  avg_deaths : ℚ
  avg_assists : ℚ
  avg_kda : ℚ
  avg_damage_dealt : ℚ
  avg_cs_per_minute : ℚ
  avg_vision_score : ℚ
  total_penta_kills : ℕ
deriving DecidableEq

/-- Translation of `MatchDataProcessor.calculate_overall_stats`
(src/services/data_processor.py, lines 197-252).  `none` models the early
`return {}` on an empty DataFrame.  The `if 0 < total_games` guard on the
win rate is the code's `if total_games > 0 else 0` verbatim. -/
def calculate_overall_stats (l : List MatchRecord) : Option OverallStats :=
  if l.isEmpty then none
  else
    let total_games := l.length
    let wins := (l.filter (fun r => r.win)).length
    some {
      total_games := total_games
      wins := wins
      losses := total_games - wins
      win_rate := if 0 < total_games then round2 ((wins : ℚ) / (total_games : ℚ) * 100) else 0
      avg_kills := round2 (colMean (fun r => (r.kills : ℚ)) l)
      avg_deaths := round2 (colMean (fun r => (r.deaths : ℚ)) l)
      avg_assists := round2 (colMean (fun r => (r.assists : ℚ)) l)
      avg_kda := round2 (colMean (fun r => r.kda) l)
      avg_damage_dealt := round0 (colMean (fun r => (r.total_damage_dealt_to_champions : ℚ)) l)
      avg_cs_per_minute := round2 (colMean (fun r => r.cs_per_minute) l)
      avg_vision_score := round1 (colMean (fun r => (r.vision_score : ℚ)) l)
      total_penta_kills := (l.map (fun r => r.penta_kills)).sum }

/-- One entry of the weakness dictionary: the reported numeric value and the
severity string. -/
structure Weakness where
  value : ℚ
  severity : String
deriving DecidableEq

/-- The weakness dictionary produced by
`MatchDataProcessor.identify_weaknesses`; a `none` field models the key
being absent. -/
structure Weaknesses where
  high_deaths : Option Weakness
  low_vision : Option Weakness
  low_cs : Option Weakness
  low_damage_in_losses : Option Weakness
deriving DecidableEq

/-- Translation of `MatchDataProcessor.identify_weaknesses`
(src/services/data_processor.py, lines 401-460). -/
def identify_weaknesses (l : List MatchRecord) : Weaknesses :=
  if l.isEmpty then ⟨none, none, none, none⟩
  else
    let avg_deaths := colMean (fun r => (r.deaths : ℚ)) l
    let hd := if avg_deaths > 6 then
        some ⟨round2 avg_deaths, if avg_deaths > 8 then "high" else "medium"⟩
      else none
    let avg_vision := colMean (fun r => (r.vision_score : ℚ)) l
    let lv := if avg_vision < 30 then
        some ⟨round1 avg_vision, if avg_vision < 20 then "high" else "medium"⟩
      else none
    let avg_cs_per_min := colMean (fun r => r.cs_per_minute) l
    let lc := if avg_cs_per_min < 5 then
        some ⟨round2 avg_cs_per_min, "medium"⟩
      else none
    let losses := l.filter (fun r => r.win = false)
    let ld := if losses.isEmpty then none
      else
        let avg_damage_in_losses :=
          colMean (fun r => (r.total_damage_dealt_to_champions : ℚ)) losses
        let overall_avg_damage :=
          colMean (fun r => (r.total_damage_dealt_to_champions : ℚ)) l
        if avg_damage_in_losses < overall_avg_damage * (7/10) then
          some ⟨round0 avg_damage_in_losses, "medium"⟩
        else none
    ⟨hd, lv, lc, ld⟩

/-- The growth-metrics dictionary of
`InsightsEngine._calculate_growth_metrics`. -/
structure GrowthMetrics where
  win_rate_change : ℚ
  kda_change : ℚ
  damage_change : ℚ
  cs_change : ℚ
  vision_change : ℚ
deriving DecidableEq

/-- Translation of `InsightsEngine._calculate_growth_metrics`
(src/services/insights_engine.py, lines 477-496).  The record list is in
the DataFrame's canonical order, most recent first; `none` models the
empty-dictionary results.  Indexing `second_stats` and `first_stats` on an
empty half would be a lookup fault in the source, modelled by the
fall-through `none` arm. -/
def calculate_growth_metrics (l : List MatchRecord) : Option GrowthMetrics :=
  if l.length < 20 then none
  else
    let midpoint := l.length / 2
    let first_half := l.drop midpoint
    let second_half := l.take midpoint
    match calculate_overall_stats first_half, calculate_overall_stats second_half with
    | some first_stats, some second_stats =>
      some {
        win_rate_change := round2 (second_stats.win_rate - first_stats.win_rate)
        kda_change := round2 (second_stats.avg_kda - first_stats.avg_kda)
        damage_change := round0 (second_stats.avg_damage_dealt - first_stats.avg_damage_dealt)
        cs_change := round2 (second_stats.avg_cs_per_minute - first_stats.avg_cs_per_minute)
        vision_change := round1 (second_stats.avg_vision_score - first_stats.avg_vision_score) }
    | _, _ => none

/-- Translation of the trend-direction computation inside
`InsightsEngine._get_performance_trends` (src/services/insights_engine.py,
lines 173-196).  `monthly` is the list of
(win_rate, avg_kda) rows of the per-month table, in ascending month order,
so the head of its reversal is the table's last row.  The source guard
is `if len(monthly) >= 2`, read the last two rows, else both labels
"stable"; a two-row reversal pattern is the same discrimination. -/
def performance_trend_labels (monthly : List (ℚ × ℚ)) : String × String :=
  match monthly.reverse with
  | recent :: previous :: _ =>
    ((if recent.1 > previous.1 then "improving" else "declining"),
     (if recent.2 > previous.2 then "improving" else "declining"))
  | _ => ("stable", "stable")

/-- Translation of the trend label of
`InsightsEngine._analyze_recent_performance` (src/services/insights_engine.py,
lines 368-388), as a function of the computed difference
`recent win rate - overall win rate`. -/
def recent_performance_trend (wr_diff : ℚ) : String :=
  if wr_diff > 0 then "improving"
  else if wr_diff < 0 then "declining"
  else "stable"

/-- Translation of `InsightsEngine._calculate_max_streak`
(src/services/insights_engine.py, lines 498-511): the running fold over the
boolean column, in the order stored in the DataFrame. -/
def calculate_max_streak_aux : List Bool → ℕ → ℕ → ℕ
  | [], max_streak, _ => max_streak
  | b :: rest, max_streak, current_streak =>
    if b then
      calculate_max_streak_aux rest (max max_streak (current_streak + 1)) (current_streak + 1)
    else
      calculate_max_streak_aux rest max_streak 0

/-- Entry point of `InsightsEngine._calculate_max_streak`: both counters
start at zero. -/
def calculate_max_streak (column : List Bool) : ℕ :=
  calculate_max_streak_aux column 0 0

example : calculate_max_streak [true, true, false, true] = 2 := by decide
example : calculate_max_streak ([true, true, true, true, true, false, true].reverse) = 5 := by
  decide

/-- Error classification of `RiotAPIError` messages raised by
`RiotAPIClient._make_request` (src/services/riot_api.py, lines 135-146). -/
inductive RiotError where
  | notFound
  | authInvalid
  | rateLimited
  | apiFailed (status_code : ℕ)
  | requestError
deriving DecidableEq

/-- A JSON value, the payload type of cached and returned API responses.
Python truthiness over these values drives the `if cached:` test in
`_make_request`. -/
inductive Json where
  | null
  | bool (b : Bool)
  | num (q : ℚ)
  | str (s : String)
  | arr (items : List Json)
  | obj (fields : List (String × Json))

/-- Python truthiness of a JSON value: none of null, false, zero, the empty
string, the empty array and the empty object is truthy.  (Top-level test
only; no recursion is involved.) -/
def Json.truthy : Json → Bool
  | .null => false
  | .bool b => b
  | .num q => q ≠ 0
  | .str s => s ≠ ""
  | .arr items => ¬items.isEmpty
  | .obj fields => ¬fields.isEmpty

/-- The mutable cache of a `RiotAPIClient` instance: the `_cache` and
`_cache_expiry` dictionaries (src/services/riot_api.py, lines 81-83),
modelled as partial maps.  Expiry instants are absolute times in seconds;
`datetime.min` corresponds to time 0. -/
structure CacheState where
  cache : String → Option Json
  cache_expiry : String → Option ℕ

/-- Translation of `RiotAPIClient._get_from_cache`
(src/services/riot_api.py, lines 85-94).  Returns the cached value (or
`none`) together with the possibly-updated state: an expired entry is
deleted from both dictionaries on the lookup. -/
def get_from_cache (now : ℕ) (st : CacheState) (key : String) : Option Json × CacheState :=
  match st.cache key with
  | some v =>
    if now < (st.cache_expiry key).getD 0 then (some v, st)
    else
      (none,
        { cache := fun k => if k = key then none else st.cache k
          cache_expiry := fun k => if k = key then none else st.cache_expiry k })
  | none => (none, st)

/-- Translation of `RiotAPIClient._set_cache` (src/services/riot_api.py,
lines 96-99): store the data and an absolute expiry `now + expiry_hours`
hours from now. -/
def set_cache (now : ℕ) (st : CacheState) (key : String) (data : Json)
    (expiry_hours : ℕ) : CacheState :=
  { cache := fun k => if k = key then some data else st.cache k
    cache_expiry := fun k => if k = key then some (now + expiry_hours * 3600) else st.cache_expiry k }

/-- Outcome of one network round trip (`requests.get` + `raise_for_status`):
either the decoded JSON body, or a `RequestException` carrying an optional
HTTP status code. -/
inductive NetResult where
  | success (data : Json)
  | failure (status_code : Option ℕ)

/-- The `except RequestException` classification in
`RiotAPIClient._make_request` (src/services/riot_api.py, lines 135-146). -/
def classify_request_failure : Option ℕ → RiotError
  | some 404 => .notFound
  | some 403 => .authInvalid
  | some 429 => .rateLimited
  | some c => .apiFailed c
  | none => .requestError

/-- Translation of `RiotAPIClient._make_request` (src/services/riot_api.py,
lines 104-146).  `net` is the network oracle for this request; `now` is the
current time.  The result carries the response (or classified error), the
updated cache state, and whether a network call was issued on this
invocation. -/
def make_request (net : String → NetResult) (now : ℕ) (st : CacheState)
    (url : String) (use_cache : Bool) (cache_hours : ℕ) :
    Except RiotError Json × CacheState × Bool :=
  let issue : CacheState → Except RiotError Json × CacheState × Bool := fun st1 =>
    match net url with
    | .success data =>
      (Except.ok data, if use_cache then set_cache now st1 url data cache_hours else st1, true)
    | .failure code => (Except.error (classify_request_failure code), st1, true)
  if use_cache then
    match get_from_cache now st url with
    | (some cached, st1) =>
      if cached.truthy then (Except.ok cached, st1, false) else issue st1
    | (none, st1) => issue st1
  else issue st

/-- The requested page size of the full-history loop
(src/services/riot_api.py, line 256). -/
def batch_size : ℕ := 100

/-- Upstream environment of one `get_full_match_history` run: the id
sequence the match-v5 endpoint serves for this puuid and time window,
which calls to the id-listing endpoint fail, and the outcome of each
match-detail fetch (an `Except.error` models a `RiotAPIError`). -/
structure FetchEnv (α : Type) where
  history : List String
  listFails : ℕ → Bool
  detail : String → Except RiotError α

/-- Translation of `RiotAPIClient.get_match_ids_by_puuid`
(src/services/riot_api.py, lines 175-210) against a `FetchEnv`: the
endpoint serves the window of the underlying id sequence at the start
cursor, capped at `min count 100` (line 197), unless this listing call
fails. -/
def get_match_ids_by_puuid (env : FetchEnv α) (start count : ℕ) :
    Except RiotError (List String) :=
  if env.listFails start then Except.error RiotError.requestError
  else Except.ok ((env.history.drop start).take (min count 100))

/-- The page of ids the environment serves at a given start cursor when the
listing call succeeds. -/
def ids_page (env : FetchEnv α) (start : ℕ) : List String :=
  (env.history.drop start).take (min batch_size 100)

/-- Translation of the inner `for match_id in match_ids` loop of
`RiotAPIClient.get_full_match_history` (src/services/riot_api.py,
lines 275-285): stop once `max_matches` records are accumulated; fetch each
detail; on a `RiotAPIError` log and `continue` with the next id. -/
def fetch_batch (detail : String → Except RiotError α) (max_matches : ℕ)
    (all_matches : List α) : List String → List α
  | [] => all_matches
  | match_id :: rest =>
    if max_matches ≤ all_matches.length then all_matches
    else
      match detail match_id with
      | Except.ok m => fetch_batch detail max_matches (all_matches ++ [m]) rest
      | Except.error _ => fetch_batch detail max_matches all_matches rest

/-- Translation of the `while` loop of
`RiotAPIClient.get_full_match_history` (src/services/riot_api.py,
lines 260-295).  Every exit of the source loop is a `break` followed by a
normal `return`, including the `except RiotAPIError` handler around the
id-listing call (lines 293-295); the `Except` result type records that no
error escapes.  Termination: the cursor advances by `batch_size` each
round, and a round only recurses when the page it got back was full, so
the distance from the cursor to the end of the upstream id sequence
shrinks. -/
def fetch_loop (env : FetchEnv α) (max_matches : ℕ) (all_matches : List α)
    (start_index : ℕ) : Except RiotError (List α) :=
  if all_matches.length < max_matches then
    match hids : get_match_ids_by_puuid env start_index batch_size with
    | Except.error _ => Except.ok all_matches
    | Except.ok match_ids =>
      if match_ids.isEmpty then Except.ok all_matches
      else
        let acc2 := fetch_batch env.detail max_matches all_matches match_ids
        if match_ids.length < batch_size then Except.ok acc2
        else fetch_loop env max_matches acc2 (start_index + batch_size)
  else Except.ok all_matches
termination_by env.history.length - start_index
decreasing_by
  have hlen : match_ids.length ≤ env.history.length - start_index := by
    unfold get_match_ids_by_puuid at hids
    by_cases hf : env.listFails start_index
    · simp [hf] at hids
    · simp [hf] at hids
      subst hids
      simp [List.length_take, List.length_drop]
  rename_i hfull
  simp only [not_lt] at hfull
  have : batch_size ≤ env.history.length - start_index := le_trans hfull hlen
  simp only [batch_size] at this ⊢
  omega

/-- Translation of `RiotAPIClient.get_full_match_history`
(src/services/riot_api.py, lines 238-298): run the pagination loop with an
empty accumulator and cursor 0. -/
def get_full_match_history (env : FetchEnv α) (max_matches : ℕ) :
    Except RiotError (List α) :=
  fetch_loop env max_matches [] 0

/-- Length of the leading run of `true` at the head of a boolean list. -/
def leadTrue : List Bool → ℕ
  | true :: rest => leadTrue rest + 1
  | _ => 0

/-- Length of the longest run of consecutive `true` values: the maximum of
`leadTrue` over all suffixes. -/
def maxRun : List Bool → ℕ
  | [] => 0
  | b :: rest => max (leadTrue (b :: rest)) (maxRun rest)

/-- The list contains `n` consecutive `true` values somewhere. -/
def hasRun (l : List Bool) (n : ℕ) : Prop :=
  ∃ s t, l = s ++ List.replicate n true ++ t

/-- The leading run contributed by a partial streak of length `cur` carried
into the list (zero if the list does not start with `true`). -/
def leadWith (cur : ℕ) (l : List Bool) : ℕ :=
  (if l.head? = some true then cur else 0) + leadTrue l

theorem leadTrue_le_maxRun : ∀ l : List Bool, leadTrue l ≤ maxRun l
  | [] => le_refl 0
  | _ :: _ => le_max_left _ _

theorem leadTrue_eq_zero (l : List Bool) (h : l.head? ≠ some true) :
    leadTrue l = 0 := by
  match l with
  | [] => rfl
  | true :: rest => simp at h
  | false :: rest => rfl

theorem calculate_max_streak_aux_closed (l : List Bool) :
    ∀ max_s cur, calculate_max_streak_aux l max_s cur
      = max max_s (max (leadWith cur l) (maxRun l)) := by
  induction l with
  | nil => intro max_s cur; simp [calculate_max_streak_aux, leadWith, leadTrue, maxRun]
  | cons b rest ih =>
    intro max_s cur
    cases b with
    | true =>
      rw [show calculate_max_streak_aux (true :: rest) max_s cur
        = calculate_max_streak_aux rest (max max_s (cur + 1)) (cur + 1) from rfl, ih]
      by_cases hh : rest.head? = some true
      · simp only [leadWith, hh, if_pos, leadTrue, maxRun, List.head?_cons, if_true]
        omega
      · have h0 : leadTrue rest = 0 := leadTrue_eq_zero rest hh
        simp only [leadWith, hh, if_neg, if_false, leadTrue, maxRun, List.head?_cons,
          if_true, h0]
        omega
    | false =>
      rw [show calculate_max_streak_aux (false :: rest) max_s cur
        = calculate_max_streak_aux rest max_s 0 from rfl, ih]
      have hle : leadTrue rest ≤ maxRun rest := leadTrue_le_maxRun rest
      have hW : leadWith 0 rest = leadTrue rest := by
        unfold leadWith; split_ifs <;> simp
      have hW2 : leadWith cur (false :: rest) = 0 := by
        simp [leadWith, leadTrue]
      simp only [hW, hW2, maxRun, leadTrue]
      omega

theorem calculate_max_streak_eq_maxRun (l : List Bool) :
    calculate_max_streak l = maxRun l := by
  have h := calculate_max_streak_aux_closed l 0 0
  have hW : leadWith 0 l = leadTrue l := by
    unfold leadWith; split_ifs <;> simp
  have hle : leadTrue l ≤ maxRun l := leadTrue_le_maxRun l
  unfold calculate_max_streak
  rw [h, hW]
  omega

theorem maxRun_le_append : ∀ (s l : List Bool), maxRun l ≤ maxRun (s ++ l)
  | [], _ => le_refl _
  | a :: s, l => le_trans (maxRun_le_append s l) (by simp [maxRun])

theorem le_leadTrue_replicate : ∀ (n : ℕ) (t : List Bool),
    n ≤ leadTrue (List.replicate n true ++ t)
  | 0, _ => Nat.zero_le _
  | n + 1, t => by
    rw [List.replicate_succ, List.cons_append]
    have := le_leadTrue_replicate n t
    simp only [leadTrue]
    omega

theorem hasRun_le_maxRun {l : List Bool} {n : ℕ} (h : hasRun l n) :
    n ≤ maxRun l := by
  obtain ⟨s, t, rfl⟩ := h
  calc n ≤ leadTrue (List.replicate n true ++ t) := le_leadTrue_replicate n t
    _ ≤ maxRun (List.replicate n true ++ t) := leadTrue_le_maxRun _
    _ ≤ maxRun (s ++ (List.replicate n true ++ t)) := maxRun_le_append s _
    _ = maxRun (s ++ List.replicate n true ++ t) := by rw [List.append_assoc]

theorem leadTrue_decomp : ∀ l : List Bool,
    ∃ t, l = List.replicate (leadTrue l) true ++ t
  | [] => ⟨[], rfl⟩
  | true :: rest => by
    obtain ⟨t, ht⟩ := leadTrue_decomp rest
    exact ⟨t, by rw [show leadTrue (true :: rest) = leadTrue rest + 1 from rfl,
      List.replicate_succ, List.cons_append, ← ht]⟩
  | false :: rest => ⟨false :: rest, rfl⟩

theorem hasRun_maxRun : ∀ l : List Bool, hasRun l (maxRun l)
  | [] => ⟨[], [], rfl⟩
  | b :: rest => by
    rcases max_choice (leadTrue (b :: rest)) (maxRun rest) with hmx | hmx
    · rw [show maxRun (b :: rest) = max (leadTrue (b :: rest)) (maxRun rest) from rfl, hmx]
      obtain ⟨t, ht⟩ := leadTrue_decomp (b :: rest)
      exact ⟨[], t, by simpa using ht⟩
    · rw [show maxRun (b :: rest) = max (leadTrue (b :: rest)) (maxRun rest) from rfl, hmx]
      obtain ⟨s, t, ht⟩ := hasRun_maxRun rest
      refine ⟨b :: s, t, ?_⟩
      conv_lhs => rw [ht]
      simp only [List.cons_append]

theorem hasRun_mono {l : List Bool} {n m : ℕ} (hnm : n ≤ m) (h : hasRun l m) :
    hasRun l n := by
  obtain ⟨s, t, rfl⟩ := h
  refine ⟨s, List.replicate (m - n) true ++ t, ?_⟩
  have hrep : List.replicate m true
      = List.replicate n true ++ List.replicate (m - n) true := by
    rw [← List.replicate_add]
    congr 1
    omega
  rw [hrep]
  simp only [List.append_assoc]

theorem hasRun_iff_le_maxRun (l : List Bool) (n : ℕ) :
    hasRun l n ↔ n ≤ maxRun l :=
  ⟨hasRun_le_maxRun, fun h => hasRun_mono h (hasRun_maxRun l)⟩

theorem hasRun_reverse {l : List Bool} {n : ℕ} (h : hasRun l n) :
    hasRun l.reverse n := by
  obtain ⟨s, t, rfl⟩ := h
  refine ⟨t.reverse, s.reverse, ?_⟩
  simp [List.reverse_append, List.reverse_replicate, List.append_assoc]

theorem maxRun_reverse (l : List Bool) : maxRun l.reverse = maxRun l := by
  apply le_antisymm
  · exact hasRun_le_maxRun (by simpa using hasRun_reverse (hasRun_maxRun l.reverse))
  · exact hasRun_le_maxRun (hasRun_reverse (hasRun_maxRun l))

example (l : List Bool) : calculate_max_streak l = calculate_max_streak l.reverse := by
  rw [calculate_max_streak_eq_maxRun, calculate_max_streak_eq_maxRun, maxRun_reverse]

/-- C2: for all non-negative kills, deaths, assists, the normalizer's KDA is
kills + assists when deaths = 0 (no division fault), and the quotient
(kills + assists) / deaths rounded to 2 decimals when deaths > 0; the
rounded value is within 1/200 of the exact quotient. -/
theorem calculate_kda_spec (kills deaths assists : ℕ) :
    calculate_kda kills 0 assists = (kills : ℚ) + assists
    ∧ calculate_kda kills (deaths + 1) assists
        = round2 (((kills : ℚ) + assists) / ((deaths : ℚ) + 1))
    ∧ |calculate_kda kills (deaths + 1) assists
        - ((kills : ℚ) + assists) / ((deaths : ℚ) + 1)| ≤ 1/200 := by
  have h2 : calculate_kda kills (deaths + 1) assists
      = round2 (((kills : ℚ) + assists) / ((deaths : ℚ) + 1)) := by
    unfold calculate_kda
    rw [if_neg (Nat.succ_ne_zero deaths)]
    push_cast
    ring_nf
  refine ⟨?_, h2, ?_⟩
  · unfold calculate_kda
    rw [if_pos rfl]
    push_cast
    ring
  · rw [h2]
    exact round2_close _

/-- C3 counterexample: at the strictly negative duration -60 seconds the
code computes a nonzero (negative) CS-per-minute, not 0 as the claim
states for all durations at most 0. -/
theorem calculate_cs_per_minute_neg_counterexample :
    calculate_cs_per_minute 60 0 (-60) = -60
    ∧ (-60 : ℤ) ≤ 0
    ∧ ((-60 : ℚ) ≠ 0) := by
  refine ⟨?_, by norm_num, by norm_num⟩
  norm_num [calculate_cs_per_minute, round2, roundHalfEven]

/-- C3 amended: the computed CS-per-minute is 0 exactly when the duration is
0 (the code tests the quotient duration/60 against zero, which vanishes only
at duration 0); for every nonzero duration, including negative ones, it is
the rounded quotient (minions + jungle) / (duration / 60). -/
theorem calculate_cs_per_minute_spec (minions jungle : ℕ) (duration : ℤ) :
    calculate_cs_per_minute minions jungle 0 = 0
    ∧ (duration ≠ 0 → calculate_cs_per_minute minions jungle duration
        = round2 (((minions : ℚ) + jungle) / ((duration : ℚ) / 60))) := by
  constructor
  · unfold calculate_cs_per_minute
    norm_num
  · intro hd
    unfold calculate_cs_per_minute
    have hne : ((duration : ℚ) / 60) ≠ 0 := by
      simp only [div_ne_zero_iff]
      exact ⟨Int.cast_ne_zero.2 hd, by norm_num⟩
    rw [if_neg hne]
    push_cast
    ring_nf

/-- C3 witness: the amended characterization evaluated at duration -60. -/
theorem calculate_cs_per_minute_spec_witness :
    ((-60 : ℤ) ≠ 0)
    ∧ calculate_cs_per_minute 7 1 (-60)
        = round2 (((7 : ℚ) + 1) / (((-60 : ℤ) : ℚ) / 60)) :=
  ⟨by decide, (calculate_cs_per_minute_spec 7 1 (-60)).2 (by decide)⟩

/-- C7: the streak computation over the stored (most-recent-first) column
equals the one over the chronological (reversed) order, and it is exactly
the length of the longest run of consecutive true values of that
chronological sequence: runs of every length up to it occur, and none
longer.  The spec scenario, chronological [T,T,T,T,T,F,T], yields 5. -/
theorem calculate_max_streak_spec (column : List Bool) :
    calculate_max_streak column = calculate_max_streak column.reverse
    ∧ (∀ n, hasRun column.reverse n ↔ n ≤ calculate_max_streak column)
    ∧ calculate_max_streak ([true, true, true, true, true, false, true].reverse) = 5 := by
  refine ⟨?_, ?_, by decide⟩
  · rw [calculate_max_streak_eq_maxRun, calculate_max_streak_eq_maxRun, maxRun_reverse]
  · intro n
    rw [calculate_max_streak_eq_maxRun, ← maxRun_reverse]
    exact hasRun_iff_le_maxRun column.reverse n

/-- C6 counterexample: two time buckets with equal win rates (and equal
KDAs) are labelled "declining" by the code, where the claim requires
"stable" on equality. -/
theorem performance_trend_tie_counterexample :
    performance_trend_labels [(50, 3), (50, 3)] = ("declining", "declining")
    ∧ ("declining" : String) ≠ "stable" := by
  constructor
  · norm_num [performance_trend_labels]
  · decide

/-- C6 amended: with fewer than two buckets both labels are "stable"; with
at least two, the label is "improving" exactly when the later bucket value
is strictly greater than the earlier one and "declining" otherwise
(ties included).  Only the recent-vs-overall comparison of
_analyze_recent_performance uses the three-way rule with ties labelled
"stable". -/
theorem performance_trend_labels_spec (pre : List (ℚ × ℚ)) (p q x : ℚ × ℚ) (d : ℚ) :
    performance_trend_labels [] = ("stable", "stable")
    ∧ performance_trend_labels [x] = ("stable", "stable")
    ∧ performance_trend_labels (pre ++ [p, q])
        = ((if q.1 > p.1 then "improving" else "declining"),
           (if q.2 > p.2 then "improving" else "declining"))
    ∧ (recent_performance_trend d = "improving" ↔ 0 < d)
    ∧ (recent_performance_trend d = "declining" ↔ d < 0)
    ∧ (recent_performance_trend d = "stable" ↔ d = 0) := by
  refine ⟨rfl, rfl, ?_, ?_, ?_, ?_⟩
  · simp [performance_trend_labels]
  · rcases lt_trichotomy d 0 with h | h | h
    · simp [recent_performance_trend, h, not_lt.2 (le_of_lt h), asymm h]
    · simp [recent_performance_trend, h]
    · simp [recent_performance_trend, h]
  · rcases lt_trichotomy d 0 with h | h | h
    · simp [recent_performance_trend, h, not_lt.2 (le_of_lt h)]
    · simp [recent_performance_trend, h]
    · simp [recent_performance_trend, h, not_lt.2 (le_of_lt h), asymm h]
  · rcases lt_trichotomy d 0 with h | h | h
    · simp [recent_performance_trend, h, not_lt.2 (le_of_lt h), ne_of_lt h]
    · simp [recent_performance_trend, h]
    · simp [recent_performance_trend, h, not_lt.2 (le_of_lt h), ne_of_gt h]

/-- C10: calculate_overall_stats returns the empty result on an empty record
set before any arithmetic, and on every nonempty record set the total game
count is strictly positive and the win rate is computed by the division
branch (the guarding fallback that would yield 0 is unreachable). -/
theorem calculate_overall_stats_no_div_fault :
    calculate_overall_stats [] = none
    ∧ ∀ (r : MatchRecord) (rest : List MatchRecord),
        ∃ s, calculate_overall_stats (r :: rest) = some s
          ∧ 0 < s.total_games
          ∧ s.win_rate = round2 ((s.wins : ℚ) / (s.total_games : ℚ) * 100) := by
  constructor
  · rfl
  · intro r rest
    refine ⟨_, rfl, ?_, ?_⟩
    · simp [calculate_overall_stats]
    · simp only [calculate_overall_stats, List.isEmpty_cons, Bool.false_eq_true,
        if_false, List.length_cons]
      rw [if_pos (Nat.succ_pos rest.length)]

/-- C8: on a nonempty record set the weakness rules fire with exact strict
boundaries: the deaths weakness has severity "high" exactly when the
average deaths exceed 8, severity "medium" exactly when they exceed 6 and
are at most 8, and is absent exactly when they are at most 6 (so exactly
6.0 triggers nothing); the vision weakness has severity "high" exactly when
the average vision score is below 20 and "medium" exactly when it is at
least 20 and below 30. -/
theorem identify_weaknesses_thresholds (r : MatchRecord) (rest : List MatchRecord) :
    ((identify_weaknesses (r :: rest)).high_deaths.map Weakness.severity = some "high"
        ↔ 8 < colMean (fun x => (x.deaths : ℚ)) (r :: rest))
    ∧ ((identify_weaknesses (r :: rest)).high_deaths.map Weakness.severity = some "medium"
        ↔ (6 < colMean (fun x => (x.deaths : ℚ)) (r :: rest)
            ∧ colMean (fun x => (x.deaths : ℚ)) (r :: rest) ≤ 8))
    ∧ ((identify_weaknesses (r :: rest)).high_deaths = none
        ↔ colMean (fun x => (x.deaths : ℚ)) (r :: rest) ≤ 6)
    ∧ ((identify_weaknesses (r :: rest)).low_vision.map Weakness.severity = some "high"
        ↔ colMean (fun x => (x.vision_score : ℚ)) (r :: rest) < 20)
    ∧ ((identify_weaknesses (r :: rest)).low_vision.map Weakness.severity = some "medium"
        ↔ (20 ≤ colMean (fun x => (x.vision_score : ℚ)) (r :: rest)
            ∧ colMean (fun x => (x.vision_score : ℚ)) (r :: rest) < 30)) := by
  have hd_eq : (identify_weaknesses (r :: rest)).high_deaths
      = (if colMean (fun x => (x.deaths : ℚ)) (r :: rest) > 6 then
          some ⟨round2 (colMean (fun x => (x.deaths : ℚ)) (r :: rest)),
            if colMean (fun x => (x.deaths : ℚ)) (r :: rest) > 8 then "high" else "medium"⟩
        else none) := rfl
  have lv_eq : (identify_weaknesses (r :: rest)).low_vision
      = (if colMean (fun x => (x.vision_score : ℚ)) (r :: rest) < 30 then
          some ⟨round1 (colMean (fun x => (x.vision_score : ℚ)) (r :: rest)),
            if colMean (fun x => (x.vision_score : ℚ)) (r :: rest) < 20 then "high"
            else "medium"⟩
        else none) := rfl
  set A := colMean (fun x => (x.deaths : ℚ)) (r :: rest) with hA
  set V := colMean (fun x => (x.vision_score : ℚ)) (r :: rest) with hV
  refine ⟨?_, ?_, ?_, ?_, ?_⟩
  · rw [hd_eq]
    by_cases h8 : A > 8
    · have h6 : A > 6 := by linarith
      simp [h6, h8]
    · by_cases h6 : A > 6
      · simp [h6, h8]
      · have h8' : ¬ (8 : ℚ) < A := fun hh => h6 (by linarith)
        simp [h6, h8']
  · rw [hd_eq]
    by_cases h6 : A > 6
    · by_cases h8 : A > 8
      · simp [h6, h8, not_le.mpr h8]
      · simp [h6, h8, le_of_not_lt h8]
    · have h6' : ¬ (6 : ℚ) < A := h6
      simp [h6, h6']
  · rw [hd_eq]
    by_cases h6 : A > 6
    · simp [h6, not_le.mpr h6]
    · simp [h6, le_of_not_lt h6]
  · rw [lv_eq]
    by_cases h30 : V < 30
    · by_cases h20 : V < 20
      · simp [h30, h20]
      · simp [h30, h20]
    · have h20 : ¬ V < 20 := fun hh => h30 (by linarith)
      simp [h30, h20]
  · rw [lv_eq]
    by_cases h30 : V < 30
    · by_cases h20 : V < 20
      · simp [h30, h20, not_le.mpr h20]
      · simp [h30, h20, le_of_not_lt h20]
    · simp [h30]

/-- C9: the growth comparison is empty for histories of fewer than 20
records; with at least 20 records it splits the most-recent-first sequence
at index length/2 into the newer half (the taken initial segment) and the
older half (the dropped tail), computes overall statistics of each half
(both halves are nonempty, so both computations produce a result), and
reports the rounded deltas newer minus older. -/
theorem calculate_growth_metrics_spec (l : List MatchRecord) :
    (l.length < 20 → calculate_growth_metrics l = none)
    ∧ (20 ≤ l.length →
        ∃ fs ss, calculate_overall_stats (l.drop (l.length / 2)) = some fs
          ∧ calculate_overall_stats (l.take (l.length / 2)) = some ss
          ∧ calculate_growth_metrics l = some {
              win_rate_change := round2 (ss.win_rate - fs.win_rate)
              kda_change := round2 (ss.avg_kda - fs.avg_kda)
              damage_change := round0 (ss.avg_damage_dealt - fs.avg_damage_dealt)
              cs_change := round2 (ss.avg_cs_per_minute - fs.avg_cs_per_minute)
              vision_change := round1 (ss.avg_vision_score - fs.avg_vision_score) }) := by
  constructor
  · intro h
    simp [calculate_growth_metrics, h]
  · intro h
    have hdrop : ((l.drop (l.length / 2)).isEmpty) = false := by
      rw [List.isEmpty_eq_false]
      intro heq
      have := congrArg List.length heq
      simp only [List.length_drop, List.length_nil] at this
      omega
    have htake : ((l.take (l.length / 2)).isEmpty) = false := by
      rw [List.isEmpty_eq_false]
      intro heq
      have := congrArg List.length heq
      simp only [List.length_take, List.length_nil] at this
      omega
    have hfs : (calculate_overall_stats (l.drop (l.length / 2))).isSome := by
      unfold calculate_overall_stats
      rw [hdrop]
      simp
    have hss : (calculate_overall_stats (l.take (l.length / 2))).isSome := by
      unfold calculate_overall_stats
      rw [htake]
      simp
    obtain ⟨fs, hfs_eq⟩ := Option.isSome_iff_exists.mp hfs
    obtain ⟨ss, hss_eq⟩ := Option.isSome_iff_exists.mp hss
    refine ⟨fs, ss, hfs_eq, hss_eq, ?_⟩
    simp only [calculate_growth_metrics, not_lt.mpr h, if_false]
    rw [hfs_eq, hss_eq]

theorem get_match_ids_ok {env : FetchEnv α} {start count : ℕ} {ids : List String}
    (h : get_match_ids_by_puuid env start count = Except.ok ids) :
    env.listFails start = false
    ∧ ids = (env.history.drop start).take (min count 100) := by
  unfold get_match_ids_by_puuid at h
  by_cases hf : env.listFails start
  · simp [hf] at h
  · simp only [hf, Bool.false_eq_true, if_false, Except.ok.injEq] at h
    exact ⟨Bool.eq_false_iff.mpr hf, h.symm⟩

theorem fetch_batch_length_le (detail : String → Except RiotError α)
    (max_matches : ℕ) (ids : List String) :
    ∀ acc : List α, acc.length ≤ max_matches →
      (fetch_batch detail max_matches acc ids).length ≤ max_matches := by
  induction ids with
  | nil => intro acc h; exact h
  | cons mid rest ih =>
    intro acc h
    by_cases hge : max_matches ≤ acc.length
    · simp only [fetch_batch, if_pos hge]
      exact h
    · simp only [fetch_batch, if_neg hge]
      cases hd : detail mid with
      | ok m =>
        simp only []
        apply ih
        rw [List.length_append]
        simp only [List.length_cons, List.length_nil]
        omega
      | error e =>
        simp only []
        exact ih acc h

theorem fetch_loop_ok_le (k : ℕ) :
    ∀ (env : FetchEnv α) (max_matches : ℕ) (acc : List α) (start : ℕ),
      env.history.length - start ≤ k → acc.length ≤ max_matches →
      ∃ l, fetch_loop env max_matches acc start = Except.ok l
        ∧ l.length ≤ max_matches := by
  induction k with
  | zero =>
    intro env max_matches acc start hk hacc
    unfold fetch_loop
    by_cases hlt : acc.length < max_matches
    · rw [if_pos hlt]
      split
    -- id-listing failed: the loop breaks with the accumulator
      · exact ⟨acc, rfl, hacc⟩
      · rename_i match_ids heq
        obtain ⟨-, hids⟩ := get_match_ids_ok heq
        have hnil : match_ids = [] := by
          rw [hids]
          have : env.history.drop start = [] := by
            apply List.drop_eq_nil_of_le
            omega
          rw [this, List.take_nil]
        subst hnil
        simp only [List.isEmpty_nil, if_true]
        exact ⟨acc, rfl, hacc⟩
    · rw [if_neg hlt]
      exact ⟨acc, rfl, hacc⟩
  | succ k ih =>
    intro env max_matches acc start hk hacc
    unfold fetch_loop
    by_cases hlt : acc.length < max_matches
    · rw [if_pos hlt]
      split
      · exact ⟨acc, rfl, hacc⟩
      · rename_i match_ids heq
        obtain ⟨-, hids⟩ := get_match_ids_ok heq
        by_cases hempty : match_ids.isEmpty = true
        · simp only [hempty, if_true]
          exact ⟨acc, rfl, hacc⟩
        · simp only [hempty, Bool.false_eq_true, if_false]
          by_cases hshort : match_ids.length < batch_size
          · simp only [if_pos hshort]
            exact ⟨_, rfl, fetch_batch_length_le _ _ _ _ hacc⟩
          · simp only [if_neg hshort]
            apply ih
            · have hlen : match_ids.length ≤ env.history.length - start := by
                rw [hids]
                simp only [List.length_take, List.length_drop]
                omega
              simp only [not_lt, batch_size] at hshort
              simp only [batch_size]
              omega
            · exact fetch_batch_length_le _ _ _ _ hacc
    · rw [if_neg hlt]
      exact ⟨acc, rfl, hacc⟩

theorem fetch_loop_at_max {env : FetchEnv α} {max_matches : ℕ} {acc : List α}
    {start : ℕ} (h : max_matches ≤ acc.length) :
    fetch_loop env max_matches acc start = Except.ok acc := by
  unfold fetch_loop
  rw [if_neg (not_lt.mpr h)]

theorem fetch_loop_list_fails {env : FetchEnv α} {max_matches : ℕ} {acc : List α}
    {start : ℕ} (hlt : acc.length < max_matches) (hf : env.listFails start = true) :
    fetch_loop env max_matches acc start = Except.ok acc := by
  unfold fetch_loop
  rw [if_pos hlt]
  split
  · rfl
  · rename_i match_ids heq
    obtain ⟨hf', -⟩ := get_match_ids_ok heq
    rw [hf] at hf'
    exact absurd hf' (by decide)

theorem fetch_loop_empty_page {env : FetchEnv α} {max_matches : ℕ} {acc : List α}
    {start : ℕ} (hf : env.listFails start = false) (hp : ids_page env start = []) :
    fetch_loop env max_matches acc start = Except.ok acc := by
  unfold fetch_loop
  by_cases hlt : acc.length < max_matches
  · rw [if_pos hlt]
    split
    · rfl
    · rename_i match_ids heq
      obtain ⟨-, hids⟩ := get_match_ids_ok heq
      have : match_ids = [] := by rw [hids]; exact hp
      subst this
      simp only [List.isEmpty_nil, if_true]
  · rw [if_neg hlt]

theorem fetch_loop_short_page {env : FetchEnv α} {max_matches : ℕ} {acc : List α}
    {start : ℕ} (hlt : acc.length < max_matches) (hf : env.listFails start = false)
    (hne : ids_page env start ≠ []) (hshort : (ids_page env start).length < batch_size) :
    fetch_loop env max_matches acc start
      = Except.ok (fetch_batch env.detail max_matches acc (ids_page env start)) := by
  unfold fetch_loop
  rw [if_pos hlt]
  split
  · rename_i e heq
    unfold get_match_ids_by_puuid at heq
    rw [hf] at heq
    simp at heq
  · rename_i match_ids heq
    obtain ⟨-, hids⟩ := get_match_ids_ok heq
    have hpg : match_ids = ids_page env start := hids
    subst hpg
    rw [if_neg (by simpa [List.isEmpty_eq_true] using hne)]
    simp only [if_pos hshort]

/-- C1: for every environment (any underlying id sequence, any pattern of
listing failures, any per-id detail outcomes) and any bounds, the
pagination loop of get_full_match_history is a total function (it is
defined by well-founded recursion on the distance from the cursor to the
end of the upstream id sequence, so it terminates), the returned list never
holds more than max_matches records, the loop body runs only while the
accumulated count is below max_matches and the served id page is nonempty,
and a nonempty page shorter than the requested batch size (100) ends the
retrieval with exactly that page's details appended, even when max_matches
has not been reached. -/
theorem get_full_match_history_pagination (env : FetchEnv α)
    (max_matches : ℕ) (acc : List α) (start : ℕ)
    (hacc : acc.length ≤ max_matches) :
    (∃ l0, get_full_match_history env max_matches = Except.ok l0
        ∧ l0.length ≤ max_matches)
    ∧ (∃ l, fetch_loop env max_matches acc start = Except.ok l
        ∧ l.length ≤ max_matches
        ∧ (max_matches ≤ acc.length → l = acc)
        ∧ (env.listFails start = false → ids_page env start = [] → l = acc)
        ∧ (acc.length < max_matches → env.listFails start = false →
            ids_page env start ≠ [] → (ids_page env start).length < batch_size →
            l = fetch_batch env.detail max_matches acc (ids_page env start))) := by
  constructor
  · obtain ⟨l0, hl0, hlen0⟩ := fetch_loop_ok_le (env.history.length) env max_matches [] 0
      (by omega) (by simp)
    exact ⟨l0, hl0, hlen0⟩
  · obtain ⟨l, hl, hlen⟩ := fetch_loop_ok_le (env.history.length - start) env max_matches
      acc start (le_refl _) hacc
    refine ⟨l, hl, hlen, ?_, ?_, ?_⟩
    · intro hmax
      have := @fetch_loop_at_max _ env max_matches acc start hmax
      rw [hl] at this
      exact (Except.ok.injEq _ _).mp this
    · intro hf hp
      have := @fetch_loop_empty_page _ env max_matches acc start hf hp
      rw [hl] at this
      exact (Except.ok.injEq _ _).mp this
    · intro hlt hf hne hshort
      have := fetch_loop_short_page hlt hf hne hshort
      rw [hl] at this
      exact (Except.ok.injEq _ _).mp this

/-- Environment used to witness the pagination theorem: a two-id history,
no listing failures, every detail fetch succeeding. -/
def envProbe : FetchEnv ℕ :=
  { history := ["a", "b"], listFails := fun _ => false, detail := fun _ => Except.ok 0 }

/-- C1 witness: the pagination theorem applied to a concrete environment
with an empty accumulator and bound 5. -/
theorem get_full_match_history_pagination_witness :
    (([] : List ℕ).length ≤ 5)
    ∧ ((∃ l0, get_full_match_history envProbe 5 = Except.ok l0 ∧ l0.length ≤ 5)
      ∧ (∃ l, fetch_loop envProbe 5 ([] : List ℕ) 0 = Except.ok l
          ∧ l.length ≤ 5
          ∧ (5 ≤ ([] : List ℕ).length → l = [])
          ∧ (envProbe.listFails 0 = false → ids_page envProbe 0 = [] → l = [])
          ∧ (([] : List ℕ).length < 5 → envProbe.listFails 0 = false →
              ids_page envProbe 0 ≠ [] → (ids_page envProbe 0).length < batch_size →
              l = fetch_batch envProbe.detail 5 [] (ids_page envProbe 0)))) :=
  ⟨by decide, get_full_match_history_pagination envProbe 5 [] 0 (by decide)⟩

/-- Environment whose id-listing endpoint fails on every call, over a
nonempty upstream history with all detail fetches succeeding. -/
def envListingDown : FetchEnv ℕ :=
  { history := ["m1", "m2", "m3"], listFails := fun _ => true,
    detail := fun _ => Except.ok 0 }

/-- C4 counterexample: when the very first (outer) id-listing call fails
with an API error, get_full_match_history does not propagate the failure to
its caller; the except-handler around the listing call breaks the loop and
the function returns an ordinary (empty) result list. -/
theorem get_full_match_history_no_propagation_counterexample :
    envListingDown.listFails 0 = true
    ∧ envListingDown.history ≠ []
    ∧ get_full_match_history envListingDown 10 = Except.ok ([] : List ℕ) := by
  refine ⟨rfl, by simp [envListingDown], ?_⟩
  unfold get_full_match_history
  exact fetch_loop_list_fails (by decide) rfl

/-- C4 amended: get_full_match_history never propagates an API error --
an id-listing failure is caught, terminates the pagination and yields the
records accumulated so far as an ordinary return value, while a failure
fetching a single match's detail is skipped and the remaining ids of the
batch continue to be processed. -/
theorem fetch_history_error_recovery (env : FetchEnv α) (max_matches : ℕ)
    (acc : List α) (start : ℕ) (mid : String) (rest : List String) (e : RiotError) :
    (∃ l, get_full_match_history env max_matches = Except.ok l)
    ∧ (acc.length < max_matches → env.listFails start = true →
        fetch_loop env max_matches acc start = Except.ok acc)
    ∧ (acc.length < max_matches → env.detail mid = Except.error e →
        fetch_batch env.detail max_matches acc (mid :: rest)
          = fetch_batch env.detail max_matches acc rest) := by
  refine ⟨?_, ?_, ?_⟩
  · obtain ⟨l, hl, -⟩ := fetch_loop_ok_le (env.history.length) env max_matches [] 0
      (by omega) (by simp)
    exact ⟨l, hl⟩
  · exact fun hlt hf => fetch_loop_list_fails hlt hf
  · intro hlt hd
    simp only [fetch_batch, if_neg (not_le.mpr hlt), hd]

/-- Environment whose detail endpoint fails on every call. -/
def envDetailDown : FetchEnv ℕ :=
  { history := ["m1"], listFails := fun _ => false,
    detail := fun _ => Except.error RiotError.notFound }

/-- C4 witness: the recovery theorem applied to the failing environments at
concrete arguments. -/
theorem fetch_history_error_recovery_witness :
    (([] : List ℕ).length < 3 ∧ envListingDown.listFails 7 = true
      ∧ fetch_loop envListingDown 3 ([] : List ℕ) 7 = Except.ok [])
    ∧ (([] : List ℕ).length < 3
      ∧ envDetailDown.detail "m1" = Except.error RiotError.notFound
      ∧ fetch_batch envDetailDown.detail 3 ([] : List ℕ) ["m1", "m2"]
          = fetch_batch envDetailDown.detail 3 ([] : List ℕ) ["m2"]) :=
  ⟨⟨by decide, rfl,
    (fetch_history_error_recovery envListingDown 3 [] 7 "m1" [] RiotError.notFound).2.1
      (by decide) rfl⟩,
   ⟨by decide, rfl,
    (fetch_history_error_recovery envDetailDown 3 [] 0 "m1" ["m2"]
        RiotError.notFound).2.2 (by decide) rfl⟩⟩

/-- Cache state holding a single falsy value (an empty JSON object) for the
key "u", expiring at time 100. -/
def stFalsy : CacheState :=
  { cache := fun k => if k = "u" then some (Json.obj []) else none
    cache_expiry := fun k => if k = "u" then some 100 else none }

/-- Network oracle that always serves a fresh string body. -/
def netFresh : String → NetResult := fun _ => NetResult.success (Json.str "fresh")

/-- C5 counterexample: a cached entry for the URL exists and the current
time (50) is strictly before its expiry (100), yet make_request issues a
network call and returns the freshly fetched value instead of the stored
one -- the code's truthiness test treats the falsy cached value (an empty
JSON object) as a miss. -/
theorem make_request_falsy_cache_counterexample :
    stFalsy.cache "u" = some (Json.obj [])
    ∧ 50 < (stFalsy.cache_expiry "u").getD 0
    ∧ (make_request netFresh 50 stFalsy "u" true 24).2.2 = true
    ∧ (make_request netFresh 50 stFalsy "u" true 24).1 = Except.ok (Json.str "fresh")
    ∧ Json.str "fresh" ≠ Json.obj [] := by
  refine ⟨rfl, by decide, rfl, rfl, fun h => Json.noConfusion h⟩

/-- C5 amended: with caching enabled, if a cached entry for the URL exists,
its value is truthy, and the current time is strictly before its expiry,
make_request returns the stored value unchanged with the state untouched
and no network call; if the current time is at or past the expiry, the
entry is evicted from both dictionaries on that lookup and a fresh network
call is issued (its outcome cached on success).  A falsy cached value is
not served even before expiry (see the counterexample). -/
theorem make_request_cache_spec (net : String → NetResult) (now : ℕ)
    (st : CacheState) (url : String) (v : Json) (hours : ℕ) :
    (st.cache url = some v → v.truthy = true →
      now < (st.cache_expiry url).getD 0 →
      make_request net now st url true hours = (Except.ok v, st, false))
    ∧ (st.cache url = some v → (st.cache_expiry url).getD 0 ≤ now →
      ((make_request net now st url true hours).2.2 = true
        ∧ (get_from_cache now st url).1 = none
        ∧ ((get_from_cache now st url).2).cache url = none
        ∧ ((get_from_cache now st url).2).cache_expiry url = none
        ∧ make_request net now st url true hours =
            (match net url with
             | NetResult.success data =>
               (Except.ok data,
                set_cache now ((get_from_cache now st url).2) url data hours, true)
             | NetResult.failure code =>
               (Except.error (classify_request_failure code),
                (get_from_cache now st url).2, true)))) := by
  constructor
  · intro hc ht hlt
    unfold make_request get_from_cache
    rw [hc]
    simp only [if_pos hlt, ht, if_true]
  · intro hc hle
    have hcache_eq : get_from_cache now st url =
        (none,
          { cache := fun k => if k = url then none else st.cache k
            cache_expiry := fun k => if k = url then none else st.cache_expiry k }) := by
      unfold get_from_cache
      rw [hc]
      simp only [if_neg (not_lt.mpr hle)]
    refine ⟨?_, ?_, ?_, ?_, ?_⟩
    · unfold make_request
      rw [hcache_eq]
      cases net url <;> rfl
    · rw [hcache_eq]
    · rw [hcache_eq]; simp
    · rw [hcache_eq]; simp
    · unfold make_request
      rw [hcache_eq]
      cases net url <;> rfl

/-- Cache state holding a truthy value for the key "u", expiring at 100. -/
def stTruthy : CacheState :=
  { cache := fun k => if k = "u" then some (Json.str "x") else none
    cache_expiry := fun k => if k = "u" then some 100 else none }

/-- C5 witness: the cache characterization applied to a concrete state
before (time 50) and at (time 100) the expiry instant. -/
theorem make_request_cache_spec_witness :
    (stTruthy.cache "u" = some (Json.str "x")
      ∧ (Json.str "x").truthy = true
      ∧ 50 < (stTruthy.cache_expiry "u").getD 0
      ∧ make_request netFresh 50 stTruthy "u" true 24
          = (Except.ok (Json.str "x"), stTruthy, false))
    ∧ (stTruthy.cache "u" = some (Json.str "x")
      ∧ (stTruthy.cache_expiry "u").getD 0 ≤ 100
      ∧ ((make_request netFresh 100 stTruthy "u" true 24).2.2 = true
        ∧ (get_from_cache 100 stTruthy "u").1 = none
        ∧ ((get_from_cache 100 stTruthy "u").2).cache "u" = none
        ∧ ((get_from_cache 100 stTruthy "u").2).cache_expiry "u" = none
        ∧ make_request netFresh 100 stTruthy "u" true 24 =
            (match netFresh "u" with
             | NetResult.success data =>
               (Except.ok data,
                set_cache 100 ((get_from_cache 100 stTruthy "u").2) "u" data 24, true)
             | NetResult.failure code =>
               (Except.error (classify_request_failure code),
                (get_from_cache 100 stTruthy "u").2, true)))) :=
  ⟨⟨rfl, rfl, by decide,
    (make_request_cache_spec netFresh 50 stTruthy "u" (Json.str "x") 24).1
      rfl rfl (by decide)⟩,
   ⟨rfl, by decide,
    (make_request_cache_spec netFresh 100 stTruthy "u" (Json.str "x") 24).2
      rfl (by decide)⟩⟩

/-- A concrete record used to witness the growth-metrics theorem. -/
def recProbe : MatchRecord :=
  { win := true, kills := 5, deaths := 2, assists := 3, kda := 4
    total_damage_dealt_to_champions := 20000, cs_per_minute := 6
    vision_score := 25, penta_kills := 0 }

/-- C9 witness: the growth-metrics characterization applied to an 18-record
history (below the minimum, empty result) and to an exactly-20-record
history (populated deltas). -/
theorem calculate_growth_metrics_spec_witness :
    ((List.replicate 18 recProbe).length < 20
      ∧ calculate_growth_metrics (List.replicate 18 recProbe) = none)
    ∧ (20 ≤ (List.replicate 20 recProbe).length
      ∧ ∃ fs ss,
          calculate_overall_stats ((List.replicate 20 recProbe).drop
            ((List.replicate 20 recProbe).length / 2)) = some fs
          ∧ calculate_overall_stats ((List.replicate 20 recProbe).take
            ((List.replicate 20 recProbe).length / 2)) = some ss
          ∧ calculate_growth_metrics (List.replicate 20 recProbe) = some {
              win_rate_change := round2 (ss.win_rate - fs.win_rate)
              kda_change := round2 (ss.avg_kda - fs.avg_kda)
              damage_change := round0 (ss.avg_damage_dealt - fs.avg_damage_dealt)
              cs_change := round2 (ss.avg_cs_per_minute - fs.avg_cs_per_minute)
              vision_change := round1 (ss.avg_vision_score - fs.avg_vision_score) }) :=
  ⟨⟨by decide, (calculate_growth_metrics_spec (List.replicate 18 recProbe)).1 (by decide)⟩,
   ⟨by decide, (calculate_growth_metrics_spec (List.replicate 20 recProbe)).2 (by decide)⟩⟩
